import Mathlib

/-!
# Formal model of the AniWorld download queue manager

Shallow embedding of `src/aniworld/web/download_manager.py` (class
`DownloadQueueManager`) together with the percentage-resolution logic of the
`web_progress_callback` closure and the auto-provider resolution loop
`_resolve_provider_with_timeout`, plus the input validation performed by the
`/api/download` endpoint in `src/aniworld/web/app.py`.

Modelling conventions:
* Python float progress values are modelled as rationals (`ℚ`).
* `datetime.now()` timestamps are modelled as an explicit `now : Nat` argument;
  `None` timestamps are `Option Nat`.
* The Python dict `_active_downloads` (insertion ordered, keyed by job id) is a
  `List Job`; dict assignment is `dictInsert` (replace in place if the key is
  present, else append), dict deletion is `removeJob`, key lookup is `findJob`.
* The set `_cancelled_ids` is a `List Nat` queried by membership.
* Thread scheduling, locking, logging and the actual network transfer are not
  modelled; the state-mutating operations are modelled as pure state
  transformers, which is faithful because every mutation in the source runs
  under the single `_queue_lock`.
-/

namespace Streamer

/-- One download job: the dict literal built in `DownloadQueueManager.add_download`
(download_manager.py lines 111-129).  Field names follow the dict keys. -/
structure Job where
  id : Nat
  anime_title : String
  episode_urls : List String
  episode_number : Nat
  language : String
  provider : String
  total_episodes : Nat
  completed_episodes : Nat
  status : String
  current_episode : String
  progress_percentage : ℚ
  current_episode_progress : ℚ
  error_message : String
  created_by : Option Nat
  created_at : Option Nat
  started_at : Option Nat
  completed_at : Option Nat
  deriving Repr, DecidableEq

/-- The mutable state of a `DownloadQueueManager` (download_manager.py
lines 34-40); only the fields the queue operations touch. -/
structure ManagerState where
  next_id : Nat
  active_downloads : List Job
  completed_downloads : List Job
  max_completed_history : Nat
  cancelled_ids : List Nat
  deriving Repr, DecidableEq

/-- The state set up by `DownloadQueueManager.__init__`. -/
def initialManager : ManagerState :=
  { next_id := 1, active_downloads := [], completed_downloads := [],
    max_completed_history := 10, cancelled_ids := [] }

/-- Dict lookup `queue_id in self._active_downloads` / `self._active_downloads[queue_id]`. -/
def findJob (l : List Job) (qid : Nat) : Option Job :=
  l.find? (fun j => j.id == qid)

/-- Dict deletion `del self._active_downloads[queue_id]`. -/
def removeJob (l : List Job) (qid : Nat) : List Job :=
  l.filter (fun j => j.id != qid)

/-- In-place mutation of the dict entry with key `qid` (Python mutates the shared
job dict object). -/
def mapJob (l : List Job) (qid : Nat) (f : Job → Job) : List Job :=
  l.map (fun j => if j.id == qid then f j else j)

/-- Dict assignment `self._active_downloads[queue_id] = download_job`: replace in
place when the key exists (Python keeps the original position), else append. -/
def dictInsert (l : List Job) (j : Job) : List Job :=
  if l.any (fun x => x.id == j.id) then mapJob l j.id (fun _ => j) else l ++ [j]

/-- The dict literal of `add_download` (lines 111-129): a fresh job for one
episode URL, `i` is the 1-based position in the batch. -/
def mkJob (qid : Nat) (anime_title url : String) (i : Nat)
    (language provider : String) (created_by : Option Nat) (now : Nat) : Job :=
  { id := qid, anime_title := anime_title, episode_urls := [url],
    episode_number := i, language := language, provider := provider,
    total_episodes := 1, completed_episodes := 0, status := "queued",
    current_episode := "", progress_percentage := 0,
    current_episode_progress := 0, error_message := "",
    created_by := created_by, created_at := some now,
    started_at := none, completed_at := none }

/-- The `for i, episode_url in enumerate(episode_urls, 1)` loop body of
`add_download` (lines 107-132): allocate `_next_id`, bump it, store the job,
collect the id. -/
def addJobsLoop (anime_title language provider : String) (created_by : Option Nat)
    (now : Nat) : List String → Nat → ManagerState → ManagerState × List Nat
  | [], _, st => (st, [])
  | url :: rest, i, st =>
    let qid := st.next_id
    let job := mkJob qid anime_title url i language provider created_by now
    let st1 := { st with
      next_id := qid + 1,
      active_downloads := dictInsert st.active_downloads job }
    let r := addJobsLoop anime_title language provider created_by now rest (i + 1) st1
    (r.1, qid :: r.2)

/-- Model of `DownloadQueueManager.add_download` (lines 81-139).  The `total_episodes`
argument is accepted but, as in the source, never stored (each job gets
`total_episodes = 1`).  Starting the background processor is not part of the
queue state. -/
def add_download (st : ManagerState) (anime_title : String)
    (episode_urls : List String) (language provider : String)
    (total_episodes : Nat) (created_by : Option Nat) (now : Nat) :
    ManagerState × List Nat :=
  let _ := total_episodes
  addJobsLoop anime_title language provider created_by now episode_urls 1 st

/-- The dict built per active download in `get_queue_status` (lines 148-166). -/
structure ActiveView where
  id : Nat
  anime_title : String
  episode_number : Nat
  total_episodes : Nat
  completed_episodes : Nat
  status : String
  current_episode : String
  progress_percentage : ℚ
  current_episode_progress : ℚ
  error_message : String
  created_at : Option Nat
  deriving Repr, DecidableEq

/-- The dict built per completed download in `get_queue_status` (lines 170-188). -/
structure CompletedView where
  id : Nat
  anime_title : String
  episode_number : Nat
  total_episodes : Nat
  completed_episodes : Nat
  status : String
  current_episode : String
  progress_percentage : ℚ
  current_episode_progress : ℚ
  error_message : String
  completed_at : Option Nat
  deriving Repr, DecidableEq

def activeView (j : Job) : ActiveView :=
  { id := j.id, anime_title := j.anime_title, episode_number := j.episode_number,
    total_episodes := j.total_episodes, completed_episodes := j.completed_episodes,
    status := j.status, current_episode := j.current_episode,
    progress_percentage := j.progress_percentage,
    current_episode_progress := j.current_episode_progress,
    error_message := j.error_message, created_at := j.created_at }

def completedView (j : Job) : CompletedView :=
  { id := j.id, anime_title := j.anime_title, episode_number := j.episode_number,
    total_episodes := j.total_episodes, completed_episodes := j.completed_episodes,
    status := j.status, current_episode := j.current_episode,
    progress_percentage := j.progress_percentage,
    current_episode_progress := j.current_episode_progress,
    error_message := j.error_message, completed_at := j.completed_at }

/-- The `for download in self._active_downloads.values()` loop of
`get_queue_status` (lines 145-166): keep only `"queued"`/`"downloading"` jobs. -/
def activeViewsLoop : List Job → List ActiveView
  | [] => []
  | j :: rest =>
    if j.status = "queued" ∨ j.status = "downloading" then
      activeView j :: activeViewsLoop rest
    else
      activeViewsLoop rest

/-- The `for download in self._completed_downloads` loop (lines 168-188). -/
def completedViewsLoop : List Job → List CompletedView
  | [] => []
  | j :: rest => completedView j :: completedViewsLoop rest

structure QueueStatus where
  active : List ActiveView
  completed : List CompletedView
  deriving Repr, DecidableEq

/-- Model of `DownloadQueueManager.get_queue_status` (lines 141-190). -/
def get_queue_status (st : ManagerState) : QueueStatus :=
  { active := activeViewsLoop st.active_downloads,
    completed := completedViewsLoop st.completed_downloads }

/-- Model of `DownloadQueueManager.cancel_download` (lines 192-212). -/
def cancel_download (st : ManagerState) (qid : Nat) : ManagerState × Bool :=
  match findJob st.active_downloads qid with
  | none => (st, false)
  | some job =>
    if job.status = "queued" then
      ({ st with active_downloads := removeJob st.active_downloads qid }, true)
    else if job.status = "downloading" then
      ({ st with
          cancelled_ids := qid :: st.cancelled_ids,
          active_downloads :=
            mapJob st.active_downloads qid
              (fun j => { j with status := "cancelled" }) }, true)
    else (st, false)

/-- The job mutation performed by `update_episode_progress` (lines 615-631):
clamp and store the episode progress, optionally replace the activity text
(only a truthy, i.e. non-empty, description is stored), and recompute the
overall progress from the *raw* `episode_progress` argument, exactly as in the
source (line 628). -/
def episodeProgressJob (episode_progress : ℚ)
    (current_episode_desc : Option String) (download : Job) : Job :=
  let d1 : Job := { download with
    current_episode_progress := min 100 (max 0 episode_progress) }
  let d2 : Job := match current_episode_desc with
    | some s => if s ≠ "" then { d1 with current_episode := s } else d1
    | none => d1
  let total : ℚ := d2.total_episodes
  if 0 < total then
    let contribution : ℚ :=
      if 0 ≤ episode_progress then episode_progress / 100 else 0
    { d2 with progress_percentage :=
        ((d2.completed_episodes : ℚ) + contribution) / total * 100 }
  else d2

/-- Model of `DownloadQueueManager.update_episode_progress` (lines 607-633).
The second component is the returned bool. -/
def update_episode_progress (st : ManagerState) (qid : Nat)
    (episode_progress : ℚ) (current_episode_desc : Option String) :
    ManagerState × Bool :=
  match findJob st.active_downloads qid with
  | none => (st, false)
  | some download =>
    let d3 : Job :=
      episodeProgressJob episode_progress current_episode_desc download
    ({ st with active_downloads := mapJob st.active_downloads qid (fun _ => d3) },
      true)

/-- The list literal `["completed", "failed", "cancelled"]` of line 723. -/
def terminalStatuses : List String := ["completed", "failed", "cancelled"]

/-- The history cap of lines 733-736: `if len(l) > max: l = l[-max:]`.
Note the Python quirk: for `max = 0` the slice `l[-0:]` is the whole list, so
nothing is dropped. -/
def trimHistory (l : List Job) (maxN : Nat) : List Job :=
  if maxN < l.length then
    (if maxN = 0 then l else l.drop (l.length - maxN))
  else l

/-- The `completed_episodes is not None` block of `_update_download_status`
(lines 653-680): store the count and recompute the overall percentage from the
*stored* current episode progress. -/
def applyCompletedEpisodes (status : String) (completed_episodes : Option Nat)
    (d1 : Job) : Job :=
  match completed_episodes with
  | some ce =>
    let d : Job := { d1 with completed_episodes := ce }
    let total : ℚ := d.total_episodes
    let cur := d.current_episode_progress
    if 0 < total then
      if status = "downloading" ∧ cur < 100 then
        let contribution : ℚ := if 0 ≤ cur then cur / 100 else 0
        { d with progress_percentage := ((ce : ℚ) + contribution) / total * 100 }
      else
        { d with progress_percentage := (ce : ℚ) / total * 100 }
    else { d with progress_percentage := 0 }
  | none => d1

/-- The `current_episode is not None` block (lines 682-683). -/
def applyCurrentEpisode (current_episode : Option String) (d : Job) : Job :=
  match current_episode with
  | some s => { d with current_episode := s }
  | none => d

/-- The `current_episode_progress is not None` block (lines 685-712): clamp and
store the episode progress and, only when `completed_episodes` was not also
given, recompute the overall percentage from the *raw* argument. -/
def applyEpisodeProgress (status : String) (completed_episodes : Option Nat)
    (current_episode_progress : Option ℚ) (d3 : Job) : Job :=
  match current_episode_progress with
  | some p =>
    let d : Job := { d3 with current_episode_progress := min 100 (max 0 p) }
    match completed_episodes with
    | none =>
      let total : ℚ := d.total_episodes
      if 0 < total then
        if status = "downloading" ∧ p < 100 then
          let contribution : ℚ := if 0 ≤ p then p / 100 else 0
          { d with progress_percentage :=
              ((d.completed_episodes : ℚ) + contribution) / total * 100 }
        else
          { d with progress_percentage :=
              (d.completed_episodes : ℚ) / total * 100 }
      else d
    | some _ => d
  | none => d3

/-- The `error_message is not None` block (lines 714-715). -/
def applyErrorMessage (error_message : Option String) (d : Job) : Job :=
  match error_message with
  | some e => { d with error_message := e }
  | none => d

/-- The `total_episodes is not None` block (lines 717-718). -/
def applyTotalEpisodes (total_episodes : Option Nat) (d : Job) : Job :=
  match total_episodes with
  | some t => { d with total_episodes := t }
  | none => d

/-- The field mutations of `_update_download_status` (lines 650-718) in
statement order, before the timestamp handling. -/
def statusUpdatedJob (status : String) (completed_episodes : Option Nat)
    (current_episode : Option String) (error_message : Option String)
    (total_episodes : Option Nat) (current_episode_progress : Option ℚ)
    (download0 : Job) : Job :=
  applyTotalEpisodes total_episodes
    (applyErrorMessage error_message
      (applyEpisodeProgress status completed_episodes current_episode_progress
        (applyCurrentEpisode current_episode
          (applyCompletedEpisodes status completed_episodes
            { download0 with status := status }))))

/-- The timestamp handling of `_update_download_status` (lines 720-739): start
stamp on first `"downloading"`, and on a terminal status stamp completion,
force 100 percent for `"completed"`, append the job copy to the history, trim
it, and drop the job from the live table. -/
def finalizeStatusUpdate (st : ManagerState) (qid : Nat) (status : String)
    (now : Nat) (d6 : Job) : ManagerState :=
  if status = "downloading" ∧ d6.started_at = none then
    { st with active_downloads :=
        mapJob st.active_downloads qid (fun _ => { d6 with started_at := some now }) }
  else if status ∈ terminalStatuses then
    let d7 : Job := { d6 with completed_at := some now }
    let d8 : Job :=
      if status = "completed" then
        { d7 with current_episode_progress := 100, progress_percentage := 100 }
      else d7
    { st with
        completed_downloads :=
          trimHistory (st.completed_downloads ++ [d8]) st.max_completed_history,
        active_downloads := removeJob st.active_downloads qid }
  else
    { st with active_downloads := mapJob st.active_downloads qid (fun _ => d6) }

/-- Model of `DownloadQueueManager._update_download_status` (lines 635-741),
with the keyword arguments modelled positionally as `Option`s in source order:
look up the job, apply the field mutations in statement order, then handle
timestamps and retirement. -/
def update_download_status (st : ManagerState) (qid : Nat) (status : String)
    (completed_episodes : Option Nat) (current_episode : Option String)
    (error_message : Option String) (total_episodes : Option Nat)
    (current_episode_progress : Option ℚ) (now : Nat) : ManagerState × Bool :=
  match findJob st.active_downloads qid with
  | none => (st, false)
  | some download0 =>
    (finalizeStatusUpdate st qid status now
      (statusUpdatedJob status completed_episodes current_episode error_message
        total_episodes current_episode_progress download0), true)

/-- The tuple `SUPPORTED_PROVIDERS` from `src/aniworld/config.py` lines 177-187. -/
def SUPPORTED_PROVIDERS : List String :=
  ["LoadX", "VOE", "Vidmoly", "Filemoon", "Luluvdo", "Doodstream", "Vidoza",
   "SpeedFiles", "Streamtape"]

/-- The `for provider_name in SUPPORTED_PROVIDERS` loop of
`_resolve_provider_with_timeout` (lines 568-605).  `attempt p` abstracts one
timed resolver attempt: `some link` when `get_direct_link` returned a link
within the deadline, `none` on timeout or exception.  `cancelled` abstracts
`self._stop_event.is_set() or self.is_cancelled(queue_id)` (line 569).  The
per-attempt status-message updates and the episode-state resets are job-local
and do not touch the queue state. -/
def raceLoop (attempt : String → Option String) (cancelled : Bool) :
    List String → Option String
  | [] => none
  | p :: rest =>
    if cancelled then none
    else
      match attempt p with
      | some _ => some p
      | none => raceLoop attempt cancelled rest

/-- Model of `DownloadQueueManager._resolve_provider_with_timeout` (lines 552-605):
returns the first provider whose attempt produced a link, or `none` after
exhausting `SUPPORTED_PROVIDERS`. -/
def resolve_provider_with_timeout (attempt : String → Option String)
    (cancelled : Bool) : Option String :=
  raceLoop attempt cancelled SUPPORTED_PROVIDERS

/-- Outcome of the provider-selection step of `_process_download_job`:
either control proceeds to the transfer with a chosen provider, or the job is
failed before any transfer.  (The source only ever produces `proceedWith`.) -/
inductive ResolutionStep where
  | proceedWith (provider : String)
  | failJob (message : String)
  deriving Repr, DecidableEq

/-- The check `is_auto_provider = (provider == "auto" or not provider)` (line 297);
a Python-falsy provider is the empty string. -/
def is_auto_provider (provider : String) : Bool :=
  provider == "auto" || provider == ""

/-- The provider-selection step of `_process_download_job` (lines 296-319):
with an explicit provider it is used as-is; in auto mode the race result is
used when present, else the hard-coded `"VOE"` fallback (lines 309, 319) —
and in every case control falls through to the transfer section. -/
def workerResolutionStep (jobProvider : String)
    (attempt : String → Option String) (cancelled : Bool) : ResolutionStep :=
  if is_auto_provider jobProvider then
    match resolve_provider_with_timeout attempt cancelled with
    | some p => ResolutionStep.proceedWith p
    | none => ResolutionStep.proceedWith "VOE"
  else ResolutionStep.proceedWith jobProvider

/-- One yt-dlp progress event as consumed by `web_progress_callback`
(lines 370-442).  `percent_val` is the numeric value of `_percent_str` when the
field is present, non-empty and parses as a float; `none` otherwise (absent,
empty or unparsable strings all leave the percentage untouched in the source).
Byte and fragment counters default to 0 when missing, as with `.get(..., 0)`. -/
structure ProgressData where
  status : String
  percent_val : Option ℚ
  downloaded_bytes : ℚ
  total_bytes : ℚ
  fragment_index : ℚ
  fragment_count : ℚ
  deriving Repr, DecidableEq

/-- The percentage-resolution chain of `web_progress_callback`
(lines 380-415): method 1 `_percent_str`, then — only while the running value
is still `0.0` — method 2 byte counts, then method 3 fragment counts, finally
`min(100.0, max(0.0, percentage))`. -/
def resolvePercentage (d : ProgressData) : ℚ :=
  let p1 : ℚ := match d.percent_val with
    | some v => v
    | none => 0
  let p2 : ℚ :=
    if p1 = 0 then
      if 0 < d.total_bytes then d.downloaded_bytes / d.total_bytes * 100 else p1
    else p1
  let p3 : ℚ :=
    if p2 = 0 then
      if 0 < d.fragment_count then d.fragment_index / d.fragment_count * 100
      else p2
    else p2
  min 100 (max 0 p3)

/-- The input normalisation and validation of the `/api/download` endpoint
(`app.py` lines 1719-1728): a truthy `episode_url` overrides `episode_urls`,
and an empty resulting list is rejected with the explicit error
`"Episode URL(s) required"` before `add_download` is ever called. -/
def apiDownloadValidate (episode_urls : List String)
    (single_episode_url : Option String) : Except String (List String) :=
  let urls := match single_episode_url with
    | some u => if u ≠ "" then [u] else episode_urls
    | none => episode_urls
  if urls = [] then Except.error "Episode URL(s) required" else Except.ok urls

/-- The jobs created by one `add_download` call: one per URL, ids counting up
from `q`, batch positions counting up from `i`. -/
def batchJobs (anime_title language provider : String) (created_by : Option Nat)
    (now : Nat) : List String → Nat → Nat → List Job
  | [], _, _ => []
  | url :: rest, i, q =>
    mkJob q anime_title url i language provider created_by now ::
      batchJobs anime_title language provider created_by now rest (i + 1) (q + 1)

/-- The timestamp/status invariant of the spec data model: a live job has no
finish timestamp and a non-terminal status, a queued job has no start
timestamp, and a retired job has a finish timestamp and a terminal status. -/
def TimestampInv (st : ManagerState) : Prop :=
  (∀ j ∈ st.active_downloads,
      j.completed_at = none ∧ j.status ∉ terminalStatuses ∧
        (j.status = "queued" → j.started_at = none)) ∧
  (∀ j ∈ st.completed_downloads,
      j.completed_at ≠ none ∧ j.status ∈ terminalStatuses)

/-- The part of `TimestampInv` that survives `cancel_download` on a running
job: live jobs still have no finish timestamp and queued jobs no start
timestamp, but a live job may now carry the terminal status `"cancelled"`. -/
def WeakTimestampInv (st : ManagerState) : Prop :=
  (∀ j ∈ st.active_downloads,
      j.completed_at = none ∧ (j.status = "queued" → j.started_at = none)) ∧
  (∀ j ∈ st.completed_downloads,
      j.completed_at ≠ none ∧ j.status ∈ terminalStatuses)

/-! Concrete scenario states, each reachable from `initialManager` by the
modelled operations; used by the per-claim counterexample and witness
theorems. -/

/-- C3 scenario: one submitted episode. -/
def c3_st1 : ManagerState :=
  (add_download initialManager "Anime" ["u1"] "German Sub" "auto" 1 none 0).1

/-- C3 scenario: the scheduling loop marked job 1 as downloading (line 242). -/
def c3_st2 : ManagerState :=
  (update_download_status c3_st1 1 "downloading" none
    (some "Starting download...") none none none 1).1

/-- C3 scenario: the last yt-dlp progress event reported 99 percent. -/
def c3_st3 : ManagerState :=
  (update_episode_progress c3_st2 1 99 (some "Downloading Anime - 99.0%")).1

/-- C3 scenario: the post-transfer success update of line 484:
`_update_download_status(id, "downloading", completed_episodes=1,
current_episode=..., current_episode_progress=100.0)`. -/
def c3_st4 : ManagerState :=
  (update_download_status c3_st3 1 "downloading" (some 1)
    (some "Completed Anime - Episode 1") none none (some 100) 2).1

/-- C4 scenario: one submitted episode, marked downloading. -/
def c4_st1 : ManagerState :=
  (add_download initialManager "Anime" ["u1"] "German Sub" "VOE" 1 none 0).1

def c4_st2 : ManagerState :=
  (update_download_status c4_st1 1 "downloading" none
    (some "Starting download...") none none none 1).1

/-- C4 scenario: `cancel_download` applied to the running job. -/
def c4_cancelled : ManagerState × Bool := cancel_download c4_st2 1

/-- C5 scenario: a queued job (id 1). -/
def c5_stq : ManagerState :=
  (add_download initialManager "Show" ["u1"] "German Dub" "VOE" 1 none 0).1

/-- C5 scenario: the same job marked downloading. -/
def c5_std : ManagerState :=
  (update_download_status c5_stq 1 "downloading" none
    (some "Starting download...") none none none 1).1

/-- C5 scenario: the queued job as created. -/
def c5_jobq : Job := mkJob 1 "Show" "u1" 1 "German Dub" "VOE" none 0

/-- C5 scenario: the same job after the downloading transition. -/
def c5_jobd : Job :=
  { c5_jobq with
    status := "downloading", current_episode := "Starting download...",
    started_at := some 1 }

/-- C7 scenario: a downloading job about to be retired. -/
def c7_st : ManagerState :=
  (update_download_status
    (add_download initialManager "Show" ["u1"] "German Dub" "VOE" 1 none 0).1
    1 "downloading" none (some "Starting download...") none none none 1).1

/-- C8 events: explicit zero percent string together with byte counters. -/
def c8_event0 : ProgressData :=
  { status := "downloading", percent_val := some 0, downloaded_bytes := 50,
    total_bytes := 100, fragment_index := 0, fragment_count := 0 }

/-- C8 events: explicit nonzero percent string. -/
def c8_event1 : ProgressData :=
  { status := "downloading", percent_val := some 25, downloaded_bytes := 0,
    total_bytes := 0, fragment_index := 0, fragment_count := 0 }

/-- C8 events: zero percent string, byte counters 30/100. -/
def c8_event2 : ProgressData :=
  { status := "downloading", percent_val := some 0, downloaded_bytes := 30,
    total_bytes := 100, fragment_index := 0, fragment_count := 0 }

/-- C8 events: no percent string, no byte total, fragments 2/5. -/
def c8_event3 : ProgressData :=
  { status := "downloading", percent_val := none, downloaded_bytes := 0,
    total_bytes := 0, fragment_index := 2, fragment_count := 5 }

/-- C8 events: no usable signal at all. -/
def c8_event4 : ProgressData :=
  { status := "downloading", percent_val := none, downloaded_bytes := 0,
    total_bytes := 0, fragment_index := 0, fragment_count := 0 }

/-- C9 scenario: a downloading job (id 1). -/
def c9_st2 : ManagerState :=
  (update_download_status
    (add_download initialManager "Anime" ["u1"] "German Sub" "VOE" 1 none 0).1
    1 "downloading" none (some "Starting download...") none none none 1).1

/-- C9 scenario: a progress event carrying an explicit 50 percent string. -/
def c9_eventA : ProgressData :=
  { status := "downloading", percent_val := some 50, downloaded_bytes := 0,
    total_bytes := 0, fragment_index := 0, fragment_count := 0 }

/-- C9 scenario: a later progress event carrying an explicit 30 percent
string (e.g. after yt-dlp switches from one signal source to another). -/
def c9_eventB : ProgressData :=
  { status := "downloading", percent_val := some 30, downloaded_bytes := 0,
    total_bytes := 0, fragment_index := 0, fragment_count := 0 }

/-- C9 scenario: both events routed through the bridge in order. -/
def c9_st3 : ManagerState :=
  (update_episode_progress c9_st2 1 (resolvePercentage c9_eventA)
    (some "Downloading Anime")).1

def c9_st4 : ManagerState :=
  (update_episode_progress c9_st3 1 (resolvePercentage c9_eventB)
    (some "Downloading Anime")).1

/-- C9 scenario: the job after submission and the downloading transition. -/
def c9_job2 : Job :=
  { mkJob 1 "Anime" "u1" 1 "German Sub" "VOE" none 0 with
    status := "downloading", current_episode := "Starting download...",
    started_at := some 1 }

/-- C9 scenario: the job after the first (50 percent) event. -/
def c9_job3 : Job :=
  episodeProgressJob (resolvePercentage c9_eventA) (some "Downloading Anime")
    c9_job2

/-- C3 scenario: the job after submission and the downloading transition. -/
def c3_job2 : Job :=
  { mkJob 1 "Anime" "u1" 1 "German Sub" "auto" none 0 with
    status := "downloading", current_episode := "Starting download...",
    started_at := some 1 }

/-- C3 scenario: the job after the 99 percent event. -/
def c3_job3 : Job :=
  episodeProgressJob 99 (some "Downloading Anime - 99.0%") c3_job2

/-- C10 scenario: a running job that was cancelled but not yet finalized by
its worker: status `"cancelled"` while still in the live table. -/
def c10_st : ManagerState :=
  (cancel_download
    (update_download_status
      (add_download initialManager "Anime" ["u1"] "German Sub" "VOE" 1 none 0).1
      1 "downloading" none (some "Starting download...") none none none 1).1
    1).1

/-! ## Helper lemmas about the dict model -/

theorem mem_of_findJob {l : List Job} {qid : Nat} {j : Job}
    (h : findJob l qid = some j) : j ∈ l :=
  List.mem_of_find?_eq_some h

theorem id_of_findJob {l : List Job} {qid : Nat} {j : Job}
    (h : findJob l qid = some j) : j.id = qid := by
  have := List.find?_some h
  simpa using this

theorem findJob_removeJob_self (l : List Job) (qid : Nat) :
    findJob (removeJob l qid) qid = none := by
  rw [findJob, List.find?_eq_none]
  intro x hx
  rw [removeJob] at hx
  have hne : (x.id != qid) = true := (List.mem_filter.mp hx).2
  simpa using hne

theorem findJob_mapJob_self {l : List Job} {qid : Nat} {f : Job → Job} {j : Job}
    (h : findJob l qid = some j) (hid : (f j).id = j.id) :
    findJob (mapJob l qid f) qid = some (f j) := by
  induction l with
  | nil => simp [findJob] at h
  | cons x xs ih =>
    by_cases hx : x.id = qid
    · have hxj : x = j := by
        rw [findJob] at h
        rw [List.find?_cons_of_pos _ (by simpa using hx)] at h
        exact Option.some.inj h
      subst hxj
      rw [findJob, mapJob, List.map_cons, if_pos (by simpa using hx)]
      exact List.find?_cons_of_pos _ (by simp [hid, hx])
    · have hrest : findJob xs qid = some j := by
        rw [findJob] at h
        rwa [List.find?_cons_of_neg _ (by simpa using hx)] at h
      have hmap := ih hrest
      rw [findJob, mapJob, List.map_cons, if_neg (by simpa using hx)]
      rw [List.find?_cons_of_neg _ (by simpa using hx)]
      exact hmap

theorem mem_mapJob {l : List Job} {qid : Nat} {f : Job → Job} {x : Job}
    (h : x ∈ mapJob l qid f) : ∃ y, y ∈ l ∧ (x = y ∨ x = f y) := by
  rw [mapJob, List.mem_map] at h
  obtain ⟨y, hy, hxy⟩ := h
  by_cases hid : y.id = qid
  · exact ⟨y, hy, Or.inr (by simp [hid] at hxy; exact hxy.symm)⟩
  · exact ⟨y, hy, Or.inl (by simp [hid] at hxy; exact hxy.symm)⟩

theorem mem_removeJob {l : List Job} {qid : Nat} {x : Job}
    (h : x ∈ removeJob l qid) : x ∈ l :=
  List.mem_of_mem_filter h

theorem mem_dictInsert {l : List Job} {j x : Job}
    (h : x ∈ dictInsert l j) : x ∈ l ∨ x = j := by
  rw [dictInsert] at h
  split at h
  · obtain ⟨y, hy, hxy⟩ := mem_mapJob h
    rcases hxy with rfl | rfl
    · exact Or.inl hy
    · exact Or.inr rfl
  · rcases List.mem_append.mp h with hl | hr
    · exact Or.inl hl
    · exact Or.inr (List.mem_singleton.mp hr)

theorem mem_trimHistory {l : List Job} {m : Nat} {x : Job}
    (h : x ∈ trimHistory l m) : x ∈ l := by
  rw [trimHistory] at h
  split at h
  · split at h
    · exact h
    · exact List.mem_of_mem_drop h
  · exact h

theorem trimHistory_length {l : List Job} {m : Nat} (hm : 0 < m)
    (hl : l.length ≤ m + 1) : (trimHistory l m).length ≤ m := by
  rw [trimHistory]
  split
  · split
    · omega
    · rw [List.length_drop]
      omega
  · omega

theorem trimHistory_suffix (l : List Job) (m : Nat) : trimHistory l m <:+ l := by
  rw [trimHistory]
  split
  · split
    · exact List.suffix_refl l
    · exact List.drop_suffix _ l
  · exact List.suffix_refl l

theorem trimHistory_eq_of_le {l : List Job} {m : Nat} (h : l.length ≤ m) :
    trimHistory l m = l := by
  rw [trimHistory, if_neg (by omega)]

/-! ## Helper lemmas about the submission loop -/

theorem addJobsLoop_snd (t lng pv : String) (cb : Option Nat) (now : Nat) :
    ∀ (urls : List String) (i : Nat) (st : ManagerState),
      (addJobsLoop t lng pv cb now urls i st).2
        = List.range' st.next_id urls.length 1
  | [], _, st => rfl
  | url :: rest, i, st => by
    rw [addJobsLoop]
    rw [List.length_cons, List.range'_succ]
    rw [addJobsLoop_snd t lng pv cb now rest (i + 1) _]

theorem addJobsLoop_next_id (t lng pv : String) (cb : Option Nat) (now : Nat) :
    ∀ (urls : List String) (i : Nat) (st : ManagerState),
      (addJobsLoop t lng pv cb now urls i st).1.next_id
        = st.next_id + urls.length
  | [], _, st => rfl
  | url :: rest, i, st => by
    rw [addJobsLoop]
    rw [addJobsLoop_next_id t lng pv cb now rest (i + 1) _]
    simp
    omega

theorem addJobsLoop_completed (t lng pv : String) (cb : Option Nat) (now : Nat) :
    ∀ (urls : List String) (i : Nat) (st : ManagerState),
      (addJobsLoop t lng pv cb now urls i st).1.completed_downloads
        = st.completed_downloads
  | [], _, st => rfl
  | url :: rest, i, st => by
    rw [addJobsLoop]
    rw [addJobsLoop_completed t lng pv cb now rest (i + 1) _]

theorem addJobsLoop_active (t lng pv : String) (cb : Option Nat) (now : Nat) :
    ∀ (urls : List String) (i : Nat) (st : ManagerState),
      (∀ j ∈ st.active_downloads, j.id < st.next_id) →
      (addJobsLoop t lng pv cb now urls i st).1.active_downloads
        = st.active_downloads ++ batchJobs t lng pv cb now urls i st.next_id
  | [], _, st, _ => by simp [addJobsLoop, batchJobs]
  | url :: rest, i, st, h => by
    have hfresh : st.active_downloads.any
        (fun x => x.id == (mkJob st.next_id t url i lng pv cb now).id) = false := by
      rw [List.any_eq_false]
      intro x hx
      simpa [mkJob] using Nat.ne_of_lt (h x hx)
    have hins : dictInsert st.active_downloads
        (mkJob st.next_id t url i lng pv cb now)
        = st.active_downloads ++ [mkJob st.next_id t url i lng pv cb now] := by
      rw [dictInsert, hfresh]
      simp
    have hnext : ∀ j ∈ dictInsert st.active_downloads
        (mkJob st.next_id t url i lng pv cb now), j.id < st.next_id + 1 := by
      intro j hj
      rcases mem_dictInsert hj with hjl | rfl
      · exact Nat.lt_succ_of_lt (h j hjl)
      · simp [mkJob]
    have hrec := addJobsLoop_active t lng pv cb now rest (i + 1)
      { next_id := st.next_id + 1,
        active_downloads := dictInsert st.active_downloads
          (mkJob st.next_id t url i lng pv cb now),
        completed_downloads := st.completed_downloads,
        max_completed_history := st.max_completed_history,
        cancelled_ids := st.cancelled_ids } hnext
    rw [addJobsLoop]
    dsimp only
    rw [hrec]
    dsimp only
    rw [hins, batchJobs]
    simp

theorem batchJobs_mem (t lng pv : String) (cb : Option Nat) (now : Nat) :
    ∀ (urls : List String) (i q k : Nat) (hk : k < urls.length),
      mkJob (q + k) t (urls.get ⟨k, hk⟩) (i + k) lng pv cb now
        ∈ batchJobs t lng pv cb now urls i q
  | [], _, _, k, hk => by simp at hk
  | url :: rest, i, q, 0, hk => by
    rw [batchJobs]
    exact List.mem_cons_self _ _
  | url :: rest, i, q, k + 1, hk => by
    rw [batchJobs]
    refine List.mem_cons_of_mem _ ?_
    have := batchJobs_mem t lng pv cb now rest (i + 1) (q + 1) k
      (by simpa using Nat.lt_of_succ_lt_succ hk)
    have hq : q + 1 + k = q + (k + 1) := by omega
    have hi : i + 1 + k = i + (k + 1) := by omega
    rw [hq, hi] at this
    exact this

/-! ## Helper lemmas about the provider race -/

theorem raceLoop_eq_none {attempt : String → Option String} {cancelled : Bool} :
    ∀ {ps : List String}, (∀ p ∈ ps, attempt p = none) →
      raceLoop attempt cancelled ps = none
  | [], _ => rfl
  | p :: rest, h => by
    rw [raceLoop, h p (List.mem_cons_self p rest)]
    split
    · rfl
    · exact raceLoop_eq_none (fun q hq => h q (List.mem_cons_of_mem p hq))

/-! ## Helper lemmas: operations never touch `next_id`, and which ones touch
the history -/

theorem cancel_download_next_id (st : ManagerState) (qid : Nat) :
    (cancel_download st qid).1.next_id = st.next_id := by
  rw [cancel_download]
  split
  · rfl
  · split
    · rfl
    · split
      · rfl
      · rfl

theorem cancel_download_completed (st : ManagerState) (qid : Nat) :
    (cancel_download st qid).1.completed_downloads = st.completed_downloads := by
  rw [cancel_download]
  split
  · rfl
  · split
    · rfl
    · split
      · rfl
      · rfl

theorem update_episode_progress_next_id (st : ManagerState) (qid : Nat)
    (p : ℚ) (d : Option String) :
    (update_episode_progress st qid p d).1.next_id = st.next_id := by
  rw [update_episode_progress]
  split
  · rfl
  · rfl

theorem update_episode_progress_completed (st : ManagerState) (qid : Nat)
    (p : ℚ) (d : Option String) :
    (update_episode_progress st qid p d).1.completed_downloads
      = st.completed_downloads := by
  rw [update_episode_progress]
  split
  · rfl
  · rfl

theorem finalizeStatusUpdate_next_id (st : ManagerState) (qid : Nat)
    (s : String) (now : Nat) (d6 : Job) :
    (finalizeStatusUpdate st qid s now d6).next_id = st.next_id := by
  rw [finalizeStatusUpdate]
  split
  · rfl
  · split
    · rfl
    · rfl

theorem update_download_status_next_id (st : ManagerState) (qid : Nat)
    (s : String) (ce : Option Nat) (cur : Option String) (em : Option String)
    (te : Option Nat) (cep : Option ℚ) (now : Nat) :
    (update_download_status st qid s ce cur em te cep now).1.next_id
      = st.next_id := by
  rw [update_download_status]
  split
  · rfl
  · exact finalizeStatusUpdate_next_id st qid s now _

/-! ## Field-preservation lemmas for the job transformers -/

theorem applyCompletedEpisodes_fields (s : String) (ce : Option Nat) (d : Job) :
    (applyCompletedEpisodes s ce d).status = d.status ∧
    (applyCompletedEpisodes s ce d).id = d.id ∧
    (applyCompletedEpisodes s ce d).started_at = d.started_at ∧
    (applyCompletedEpisodes s ce d).completed_at = d.completed_at ∧
    (applyCompletedEpisodes s ce d).current_episode_progress
      = d.current_episode_progress := by
  cases ce with
  | none => exact ⟨rfl, rfl, rfl, rfl, rfl⟩
  | some n =>
    rw [applyCompletedEpisodes]
    dsimp only
    split_ifs <;> exact ⟨rfl, rfl, rfl, rfl, rfl⟩

theorem applyCurrentEpisode_fields (cur : Option String) (d : Job) :
    (applyCurrentEpisode cur d).status = d.status ∧
    (applyCurrentEpisode cur d).id = d.id ∧
    (applyCurrentEpisode cur d).started_at = d.started_at ∧
    (applyCurrentEpisode cur d).completed_at = d.completed_at ∧
    (applyCurrentEpisode cur d).current_episode_progress
      = d.current_episode_progress := by
  cases cur with
  | none => exact ⟨rfl, rfl, rfl, rfl, rfl⟩
  | some s => exact ⟨rfl, rfl, rfl, rfl, rfl⟩

theorem applyEpisodeProgress_fields (s : String) (ce : Option Nat)
    (cep : Option ℚ) (d : Job) :
    (applyEpisodeProgress s ce cep d).status = d.status ∧
    (applyEpisodeProgress s ce cep d).id = d.id ∧
    (applyEpisodeProgress s ce cep d).started_at = d.started_at ∧
    (applyEpisodeProgress s ce cep d).completed_at = d.completed_at := by
  cases cep with
  | none => exact ⟨rfl, rfl, rfl, rfl⟩
  | some p =>
    cases ce with
    | none =>
      rw [applyEpisodeProgress]
      dsimp only
      split_ifs <;> exact ⟨rfl, rfl, rfl, rfl⟩
    | some n => exact ⟨rfl, rfl, rfl, rfl⟩

theorem applyErrorMessage_fields (em : Option String) (d : Job) :
    (applyErrorMessage em d).status = d.status ∧
    (applyErrorMessage em d).id = d.id ∧
    (applyErrorMessage em d).started_at = d.started_at ∧
    (applyErrorMessage em d).completed_at = d.completed_at ∧
    (applyErrorMessage em d).current_episode_progress
      = d.current_episode_progress := by
  cases em with
  | none => exact ⟨rfl, rfl, rfl, rfl, rfl⟩
  | some e => exact ⟨rfl, rfl, rfl, rfl, rfl⟩

theorem applyTotalEpisodes_fields (te : Option Nat) (d : Job) :
    (applyTotalEpisodes te d).status = d.status ∧
    (applyTotalEpisodes te d).id = d.id ∧
    (applyTotalEpisodes te d).started_at = d.started_at ∧
    (applyTotalEpisodes te d).completed_at = d.completed_at ∧
    (applyTotalEpisodes te d).current_episode_progress
      = d.current_episode_progress := by
  cases te with
  | none => exact ⟨rfl, rfl, rfl, rfl, rfl⟩
  | some t => exact ⟨rfl, rfl, rfl, rfl, rfl⟩

theorem statusUpdatedJob_fields (s : String) (ce : Option Nat)
    (cur : Option String) (em : Option String) (te : Option Nat)
    (cep : Option ℚ) (d0 : Job) :
    (statusUpdatedJob s ce cur em te cep d0).status = s ∧
    (statusUpdatedJob s ce cur em te cep d0).id = d0.id ∧
    (statusUpdatedJob s ce cur em te cep d0).started_at = d0.started_at ∧
    (statusUpdatedJob s ce cur em te cep d0).completed_at = d0.completed_at := by
  rw [statusUpdatedJob]
  obtain ⟨h1s, h1i, h1a, h1c, _⟩ :=
    applyCompletedEpisodes_fields s ce { d0 with status := s }
  obtain ⟨h2s, h2i, h2a, h2c, _⟩ := applyCurrentEpisode_fields cur
    (applyCompletedEpisodes s ce { d0 with status := s })
  obtain ⟨h3s, h3i, h3a, h3c⟩ := applyEpisodeProgress_fields s ce cep
    (applyCurrentEpisode cur (applyCompletedEpisodes s ce { d0 with status := s }))
  obtain ⟨h4s, h4i, h4a, h4c, _⟩ := applyErrorMessage_fields em
    (applyEpisodeProgress s ce cep
      (applyCurrentEpisode cur (applyCompletedEpisodes s ce { d0 with status := s })))
  obtain ⟨h5s, h5i, h5a, h5c, _⟩ := applyTotalEpisodes_fields te
    (applyErrorMessage em (applyEpisodeProgress s ce cep
      (applyCurrentEpisode cur (applyCompletedEpisodes s ce { d0 with status := s }))))
  refine ⟨?_, ?_, ?_, ?_⟩
  · rw [h5s, h4s, h3s, h2s, h1s]
  · rw [h5i, h4i, h3i, h2i, h1i]
  · rw [h5a, h4a, h3a, h2a, h1a]
  · rw [h5c, h4c, h3c, h2c, h1c]

theorem episodeProgressJob_fields (p : ℚ) (desc : Option String) (d : Job) :
    (episodeProgressJob p desc d).status = d.status ∧
    (episodeProgressJob p desc d).id = d.id ∧
    (episodeProgressJob p desc d).started_at = d.started_at ∧
    (episodeProgressJob p desc d).completed_at = d.completed_at ∧
    (episodeProgressJob p desc d).current_episode_progress
      = min 100 (max 0 p) ∧
    (episodeProgressJob p desc d).total_episodes = d.total_episodes ∧
    (episodeProgressJob p desc d).completed_episodes = d.completed_episodes := by
  unfold episodeProgressJob
  cases desc with
  | none =>
    dsimp only
    split_ifs <;> exact ⟨rfl, rfl, rfl, rfl, rfl, rfl, rfl⟩
  | some s =>
    dsimp only
    split_ifs <;> exact ⟨rfl, rfl, rfl, rfl, rfl, rfl, rfl⟩

/-! ## Progress-percentage value lemmas for the status update -/

theorem applyCurrentEpisode_pp (cur : Option String) (d : Job) :
    (applyCurrentEpisode cur d).progress_percentage = d.progress_percentage := by
  cases cur <;> rfl

theorem applyErrorMessage_pp (em : Option String) (d : Job) :
    (applyErrorMessage em d).progress_percentage = d.progress_percentage := by
  cases em <;> rfl

theorem applyTotalEpisodes_pp (te : Option Nat) (d : Job) :
    (applyTotalEpisodes te d).progress_percentage = d.progress_percentage := by
  cases te <;> rfl

theorem applyEpisodeProgress_pp_some (s : String) (n : Nat) (cep : Option ℚ)
    (d : Job) :
    (applyEpisodeProgress s (some n) cep d).progress_percentage
      = d.progress_percentage := by
  cases cep <;> rfl

/-- With `completed_episodes` given, the overall percentage written by
`_update_download_status` is the one computed in lines 659-678, and no later
block overwrites it. -/
theorem statusUpdatedJob_pp_some (s : String) (n : Nat) (cur em : Option String)
    (te : Option Nat) (cep : Option ℚ) (d0 : Job) :
    (statusUpdatedJob s (some n) cur em te cep d0).progress_percentage
      = (applyCompletedEpisodes s (some n)
          { d0 with status := s }).progress_percentage := by
  rw [statusUpdatedJob, applyTotalEpisodes_pp, applyErrorMessage_pp,
    applyEpisodeProgress_pp_some, applyCurrentEpisode_pp]

/-- The value computed by the `completed_episodes` block (lines 653-680). -/
theorem applyCompletedEpisodes_some_pp (s : String) (n : Nat) (d : Job) :
    (applyCompletedEpisodes s (some n) d).progress_percentage =
      (if 0 < (d.total_episodes : ℚ) then
        (if s = "downloading" ∧ d.current_episode_progress < 100 then
          ((n : ℚ) + (if 0 ≤ d.current_episode_progress then
            d.current_episode_progress / 100 else 0))
              / (d.total_episodes : ℚ) * 100
        else (n : ℚ) / (d.total_episodes : ℚ) * 100)
      else 0) := by
  rw [applyCompletedEpisodes]
  dsimp only
  split_ifs <;> rfl

/-- The overall percentage after a status update that passes
`completed_episodes`, in terms of the fields of the looked-up job. -/
theorem statusUpdatedJob_pp_value (s : String) (n : Nat) (cur em : Option String)
    (te : Option Nat) (cep : Option ℚ) (d0 : Job) :
    (statusUpdatedJob s (some n) cur em te cep d0).progress_percentage =
      (if 0 < (d0.total_episodes : ℚ) then
        (if s = "downloading" ∧ d0.current_episode_progress < 100 then
          ((n : ℚ) + (if 0 ≤ d0.current_episode_progress then
            d0.current_episode_progress / 100 else 0))
              / (d0.total_episodes : ℚ) * 100
        else (n : ℚ) / (d0.total_episodes : ℚ) * 100)
      else 0) := by
  rw [statusUpdatedJob_pp_some, applyCompletedEpisodes_some_pp]

/-- The stored item progress after `update_episode_progress` is the clamped
latest event value, whatever was stored before. -/
theorem cep_after_update_episode_progress (st : ManagerState) (qid : Nat)
    (p : ℚ) (desc : Option String) (j : Job)
    (h : findJob st.active_downloads qid = some j) :
    (findJob (update_episode_progress st qid p desc).1.active_downloads
        qid).map Job.current_episode_progress = some (min 100 (max 0 p)) := by
  rw [update_episode_progress, h]
  dsimp only
  rw [findJob_mapJob_self (f := fun _ => episodeProgressJob p desc j) h
    ((episodeProgressJob_fields p desc j).2.1)]
  simp [(episodeProgressJob_fields p desc j).2.2.2.2.1]

/-! ## Claim C2: behaviour on provider-resolution failure -/

/-- C2, counterexample: when every provider attempt fails in auto mode, the
race reports plain `none` (no aggregate message naming the attempted
providers) and the worker does *not* fail the job — it proceeds to the
transfer with the hard-coded fallback provider `"VOE"`, contradicting the
claim that the job transitions to Failed and no transfer is attempted. -/
theorem C2_counterexample :
    resolve_provider_with_timeout (fun _ => none) false = none ∧
    workerResolutionStep "auto" (fun _ => none) false
      = ResolutionStep.proceedWith "VOE" := by
  exact ⟨rfl, rfl⟩

/-- C2, amended: if every candidate in `SUPPORTED_PROVIDERS` is exhausted
without producing a link, `_resolve_provider_with_timeout` returns `none`
(there is no aggregate failure message), and the worker then proceeds to the
transfer with the fallback provider `"VOE"` instead of transitioning the job
to Failed. -/
theorem C2_exhausted_race_falls_back_to_voe
    (attempt : String → Option String) (cancelled : Bool)
    (h : ∀ p ∈ SUPPORTED_PROVIDERS, attempt p = none) :
    resolve_provider_with_timeout attempt cancelled = none ∧
    workerResolutionStep "auto" attempt cancelled
      = ResolutionStep.proceedWith "VOE" := by
  have hr : resolve_provider_with_timeout attempt cancelled = none :=
    raceLoop_eq_none h
  refine ⟨hr, ?_⟩
  rw [workerResolutionStep, hr]
  simp [is_auto_provider]

/-- C2, witness for the amended theorem at a concrete always-failing resolver. -/
theorem C2_exhausted_race_falls_back_to_voe_witness :
    resolve_provider_with_timeout (fun _ => none) true = none ∧
    workerResolutionStep "auto" (fun _ => none) true
      = ResolutionStep.proceedWith "VOE" :=
  C2_exhausted_race_falls_back_to_voe (fun _ => none) true (fun _ _ => rfl)

/-! ## Claim C6: empty-batch validation -/

/-- C6, counterexample: `add_download` applied to an empty URL list succeeds
with an empty result and an unchanged state — it does not fail with a
"no work" error, contradicting the claim. -/
theorem C6_counterexample :
    add_download initialManager "Title" [] "German Sub" "VOE" 0 none 0
      = (initialManager, []) := rfl

/-- C6, amended: `add_download` itself performs no validation at all — on an
empty URL list it returns an empty id list and leaves the state unchanged;
the explicit rejection of an empty submission (error
`"Episode URL(s) required"`) is performed by the `/api/download` endpoint
before `add_download` is called, and a non-empty list passes that check
unchanged. -/
theorem C6_empty_batch_validated_at_endpoint :
    (∀ (st : ManagerState) (t lng pv : String) (te : Nat) (cb : Option Nat)
        (now : Nat), add_download st t [] lng pv te cb now = (st, [])) ∧
    apiDownloadValidate [] none = Except.error "Episode URL(s) required" ∧
    (∀ (u : String) (rest : List String),
        apiDownloadValidate (u :: rest) none = Except.ok (u :: rest)) := by
  refine ⟨fun st t lng pv te cb now => rfl, rfl, fun u rest => ?_⟩
  simp [apiDownloadValidate]

/-! ## Claim C8: progress-percentage resolution order -/

/-- C8, counterexample: an event whose explicit percent string parses to `0`
together with byte counters `50/100` yields `50`, not the explicit percent
value `0` — the percent string is *not* always preferred, contradicting the
claimed resolution order. -/
theorem C8_counterexample : resolvePercentage c8_event0 = 50 := by
  norm_num [resolvePercentage, c8_event0]

/-- C8, amended: the percent string is used only when it parses to a nonzero
value; while the running value is still zero the callback falls through to
byte counts (when the total is positive), then to fragment counts (when the
fragment count is positive), else reports 0; the final value is clamped to
[0, 100]. -/
theorem C8_resolution_order (d : ProgressData) :
    (∀ v : ℚ, d.percent_val = some v → v ≠ 0 →
        resolvePercentage d = min 100 (max 0 v)) ∧
    ((d.percent_val = none ∨ d.percent_val = some 0) → 0 < d.total_bytes →
        d.downloaded_bytes / d.total_bytes * 100 ≠ 0 →
        resolvePercentage d
          = min 100 (max 0 (d.downloaded_bytes / d.total_bytes * 100))) ∧
    ((d.percent_val = none ∨ d.percent_val = some 0) →
        (¬ 0 < d.total_bytes ∨ d.downloaded_bytes / d.total_bytes * 100 = 0) →
        0 < d.fragment_count →
        resolvePercentage d
          = min 100 (max 0 (d.fragment_index / d.fragment_count * 100))) ∧
    ((d.percent_val = none ∨ d.percent_val = some 0) →
        (¬ 0 < d.total_bytes ∨ d.downloaded_bytes / d.total_bytes * 100 = 0) →
        ¬ 0 < d.fragment_count →
        resolvePercentage d = 0) := by
  refine ⟨?_, ?_, ?_, ?_⟩
  · intro v hv hvne
    rw [resolvePercentage, hv]
    simp [hvne]
  · intro hpv hpos hne
    rcases hpv with hpv | hpv <;>
      · rw [resolvePercentage, hpv]
        simp [hpos, hne]
  · intro hpv hbz hfc
    rcases hpv with hpv | hpv <;>
      rcases hbz with hbz | hbz <;>
      · rw [resolvePercentage, hpv]
        simp [hbz, hfc]
  · intro hpv hbz hfc
    rcases hpv with hpv | hpv <;>
      rcases hbz with hbz | hbz <;>
      · rw [resolvePercentage, hpv]
        simp [hbz, hfc]

/-- C8, witness for the amended theorem: the four branches at concrete
events. -/
theorem C8_resolution_order_witness :
    resolvePercentage c8_event1 = 25 ∧ resolvePercentage c8_event2 = 30 ∧
    resolvePercentage c8_event3 = 40 ∧ resolvePercentage c8_event4 = 0 := by
  refine ⟨?_, ?_, ?_, ?_⟩
  · have h := (C8_resolution_order c8_event1).1 25 rfl (by norm_num)
    rw [h]; norm_num
  · have h := (C8_resolution_order c8_event2).2.1 (Or.inr rfl)
      (by norm_num [c8_event2]) (by norm_num [c8_event2])
    rw [h, c8_event2]; norm_num
  · have h := (C8_resolution_order c8_event3).2.2.1 (Or.inl rfl)
      (Or.inl (by norm_num [c8_event3])) (by norm_num [c8_event3])
    rw [h, c8_event3]; norm_num
  · exact (C8_resolution_order c8_event4).2.2.2 (Or.inl rfl)
      (Or.inl (by norm_num [c8_event4])) (by norm_num [c8_event4])

/-! ## Claim C9: monotonicity of the reported item percentage -/

/-- C9, counterexample: the bridge stores the latest event value with no
monotonicity enforcement — after an event reporting 50 percent and a later
event reporting 30 percent, the reported item percentage drops from 50 to 30,
contradicting the claimed non-decreasing sequence. -/
theorem C9_counterexample :
    resolvePercentage c9_eventA = 50 ∧
    resolvePercentage c9_eventB = 30 ∧
    (findJob c9_st3.active_downloads 1).map Job.current_episode_progress
      = some 50 ∧
    (findJob c9_st4.active_downloads 1).map Job.current_episode_progress
      = some 30 := by
  have hA : resolvePercentage c9_eventA = 50 := by
    norm_num [resolvePercentage, c9_eventA]
  have hB : resolvePercentage c9_eventB = 30 := by
    norm_num [resolvePercentage, c9_eventB]
  have h2 : findJob c9_st2.active_downloads 1 = some c9_job2 := rfl
  have h3m : (findJob c9_st3.active_downloads 1).map Job.current_episode_progress
      = some (min 100 (max 0 (resolvePercentage c9_eventA))) :=
    cep_after_update_episode_progress c9_st2 1 (resolvePercentage c9_eventA)
      (some "Downloading Anime") c9_job2 h2
  have h3 : findJob c9_st3.active_downloads 1 = some c9_job3 := rfl
  have h4m : (findJob c9_st4.active_downloads 1).map Job.current_episode_progress
      = some (min 100 (max 0 (resolvePercentage c9_eventB))) :=
    cep_after_update_episode_progress c9_st3 1 (resolvePercentage c9_eventB)
      (some "Downloading Anime") c9_job3 h3
  rw [hA] at h3m
  rw [hB] at h4m
  refine ⟨hA, hB, ?_, ?_⟩
  · rw [h3m]
    norm_num
  · rw [h4m]
    norm_num

/-- C9, amended: `update_episode_progress` overwrites the stored item
percentage with the clamped latest event value, regardless of the previously
stored value; no monotonicity is enforced, so a later lower event lowers the
reported percentage. -/
theorem C9_latest_event_wins (st : ManagerState) (qid : Nat) (p : ℚ)
    (desc : Option String) (j : Job)
    (h : findJob st.active_downloads qid = some j) :
    (findJob (update_episode_progress st qid p desc).1.active_downloads
        qid).map Job.current_episode_progress = some (min 100 (max 0 p)) :=
  cep_after_update_episode_progress st qid p desc j h

/-- C9, witness for the amended theorem: an out-of-range late event at the
concrete downloading job is clamped and overwrites the stored value. -/
theorem C9_latest_event_wins_witness :
    (findJob (update_episode_progress c9_st2 1 130 none).1.active_downloads
        1).map Job.current_episode_progress = some 100 := by
  obtain ⟨j, hj⟩ : ∃ j, findJob c9_st2.active_downloads 1 = some j := ⟨_, rfl⟩
  have h := C9_latest_event_wins c9_st2 1 130 none j hj
  rw [h]
  norm_num

/-! ## Claim C3: progress stays within [0, 100] -/

/-- C3, evaluation of the code at the failing input: starting from the
initial manager, submit one episode, mark it downloading, receive a 99
percent progress event, then apply the post-transfer success update of
line 484 (`completed_episodes=1, current_episode_progress=100.0` while the
status is still `"downloading"`).  The stored batch progress becomes
`(1 + 99/100) / 1 * 100 = 199`, outside [0, 100]: the completed episode is
double-counted against the stale stored episode progress, contradicting both
the spec invariant and the comment at lines 660-661 of the source. -/
theorem C3_progress_percentage_exceeds_100 :
    (findJob c3_st4.active_downloads 1).map Job.progress_percentage
      = some 199 ∧ ¬ ((199 : ℚ) ≤ 100) := by
  refine ⟨?_, by norm_num⟩
  have h3 : findJob c3_st3.active_downloads 1 = some c3_job3 := rfl
  show (findJob (update_download_status c3_st3 1 "downloading" (some 1)
      (some "Completed Anime - Episode 1") none none (some 100)
      2).1.active_downloads 1).map Job.progress_percentage = some 199
  rw [update_download_status, h3]
  dsimp only
  rw [finalizeStatusUpdate]
  have hsa : (statusUpdatedJob "downloading" (some 1)
      (some "Completed Anime - Episode 1") none none (some 100)
      c3_job3).started_at = some 1 := by
    rw [(statusUpdatedJob_fields "downloading" (some 1)
      (some "Completed Anime - Episode 1") none none (some 100) c3_job3).2.2.1]
    show (episodeProgressJob 99 (some "Downloading Anime - 99.0%")
      c3_job2).started_at = some 1
    rw [(episodeProgressJob_fields 99 (some "Downloading Anime - 99.0%")
      c3_job2).2.2.1]
    exact rfl
  rw [if_neg (by simp [hsa])]
  rw [if_neg (by decide)]
  rw [findJob_mapJob_self (f := fun _ => statusUpdatedJob "downloading" (some 1)
      (some "Completed Anime - Episode 1") none none (some 100) c3_job3) h3
    ((statusUpdatedJob_fields "downloading" (some 1)
      (some "Completed Anime - Episode 1") none none (some 100) c3_job3).2.1)]
  have hcep : c3_job3.current_episode_progress = 99 := by
    show (episodeProgressJob 99 (some "Downloading Anime - 99.0%")
      c3_job2).current_episode_progress = 99
    rw [(episodeProgressJob_fields 99 (some "Downloading Anime - 99.0%")
      c3_job2).2.2.2.2.1]
    norm_num
  have htot : c3_job3.total_episodes = 1 := by
    show (episodeProgressJob 99 (some "Downloading Anime - 99.0%")
      c3_job2).total_episodes = 1
    rw [(episodeProgressJob_fields 99 (some "Downloading Anime - 99.0%")
      c3_job2).2.2.2.2.2.1]
    exact rfl
  simp only [Option.map_some', statusUpdatedJob_pp_value, hcep, htot]
  norm_num

/-! ## Claim C5: cancellation semantics -/

/-- C5: `cancel_download` returns success and removes the job immediately when
it is queued (after which any further update of that id is a failing no-op, so
the job can never reach the history); returns success having only set the
cancellation flag and the status when the job is downloading; returns failure
for an unknown id or a job in any other (terminal) status — in particular a
second cancel of the same job returns failure in both success cases. -/
theorem C5_cancel_semantics (st : ManagerState) (qid : Nat) :
    (findJob st.active_downloads qid = none →
      cancel_download st qid = (st, false)) ∧
    (∀ j, findJob st.active_downloads qid = some j →
      ((j.status = "queued" →
          (cancel_download st qid).2 = true ∧
          findJob (cancel_download st qid).1.active_downloads qid = none ∧
          (cancel_download st qid).1.completed_downloads
            = st.completed_downloads ∧
          (cancel_download (cancel_download st qid).1 qid).2 = false ∧
          (∀ (s : String) (ce : Option Nat) (cur em : Option String)
              (te : Option Nat) (cep : Option ℚ) (now : Nat),
            update_download_status (cancel_download st qid).1 qid s ce cur em
              te cep now = ((cancel_download st qid).1, false))) ∧
        (j.status = "downloading" →
          (cancel_download st qid).2 = true ∧
          findJob (cancel_download st qid).1.active_downloads qid
            = some { j with status := "cancelled" } ∧
          qid ∈ (cancel_download st qid).1.cancelled_ids ∧
          (cancel_download st qid).1.completed_downloads
            = st.completed_downloads ∧
          (cancel_download (cancel_download st qid).1 qid).2 = false) ∧
        (j.status ≠ "queued" → j.status ≠ "downloading" →
          cancel_download st qid = (st, false)))) := by
  constructor
  · intro hnone
    rw [cancel_download, hnone]
  · intro j hj
    refine ⟨?_, ?_, ?_⟩
    · intro hq
      have hc : cancel_download st qid
          = ({ st with active_downloads := removeJob st.active_downloads qid },
            true) := by
        rw [cancel_download, hj]
        dsimp only
        rw [if_pos hq]
      have hgone : findJob (cancel_download st qid).1.active_downloads qid
          = none := by
        rw [hc]
        exact findJob_removeJob_self st.active_downloads qid
      refine ⟨by rw [hc], hgone, by rw [hc], ?_, ?_⟩
      · rw [cancel_download, hgone]
      · intro s ce cur em te cep now
        rw [update_download_status, hgone]
    · intro hd
      have hnq : ¬ j.status = "queued" := by
        rw [hd]
        simp
      have hme : findJob (mapJob st.active_downloads qid
            (fun j2 => { j2 with status := "cancelled" })) qid
          = some { j with status := "cancelled" } :=
        findJob_mapJob_self hj rfl
      have hc : cancel_download st qid
          = ({ st with
              cancelled_ids := qid :: st.cancelled_ids,
              active_downloads := mapJob st.active_downloads qid
                (fun j2 => { j2 with status := "cancelled" }) }, true) := by
        rw [cancel_download, hj]
        dsimp only
        rw [if_neg hnq, if_pos hd]
      have hfound : findJob (cancel_download st qid).1.active_downloads qid
          = some { j with status := "cancelled" } := by
        rw [hc]
        exact hme
      refine ⟨by rw [hc], hfound, ?_, by rw [hc], ?_⟩
      · rw [hc]
        exact List.mem_cons_self qid st.cancelled_ids
      · rw [cancel_download, hfound]
        dsimp only
        rw [if_neg (by simp), if_neg (by simp)]
    · intro hnq hnd
      rw [cancel_download, hj]
      dsimp only
      rw [if_neg hnq, if_neg hnd]

/-- C5, witness: the three branches at concrete reachable states — cancelling
the queued job 1, cancelling the downloading job 1, and cancelling an unknown
id. -/
theorem C5_cancel_semantics_witness :
    (cancel_download c5_stq 1).2 = true ∧
    findJob (cancel_download c5_stq 1).1.active_downloads 1 = none ∧
    (cancel_download (cancel_download c5_stq 1).1 1).2 = false ∧
    (cancel_download c5_std 1).2 = true ∧
    (cancel_download (cancel_download c5_std 1).1 1).2 = false ∧
    (cancel_download initialManager 7).2 = false := by
  have hq := ((C5_cancel_semantics c5_stq 1).2 c5_jobq rfl).1 rfl
  have hd := (((C5_cancel_semantics c5_std 1).2 c5_jobd rfl).2.1) rfl
  have hn := (C5_cancel_semantics initialManager 7).1 rfl
  exact ⟨hq.1, hq.2.1, hq.2.2.2.1, hd.1, hd.2.2.2.2, by rw [hn]⟩

/-! ## Claim C4: finish timestamp iff terminal status -/

/-- C4, counterexample: immediately after `cancel_download` on a running job,
the call has returned success, the job is still in the live table with the
terminal status `"cancelled"`, and its `completed_at` is still unset — the
claimed iff between a set finish timestamp and a terminal status fails at
exactly this point. -/
theorem C4_counterexample :
    c4_cancelled.2 = true ∧
    (findJob c4_cancelled.1.active_downloads 1).map Job.status
      = some "cancelled" ∧
    (findJob c4_cancelled.1.active_downloads 1).map Job.completed_at
      = some none := by
  exact ⟨rfl, rfl, rfl⟩

/-- The submission loop preserves the timestamp invariant: every job it
inserts is queued with both timestamps unset. -/
theorem addJobsLoop_timestampInv (t lng pv : String) (cb : Option Nat)
    (now : Nat) :
    ∀ (urls : List String) (i : Nat) (st : ManagerState), TimestampInv st →
      TimestampInv (addJobsLoop t lng pv cb now urls i st).1
  | [], _, _, h => h
  | url :: rest, i, st, h => by
    rw [addJobsLoop]
    dsimp only
    refine addJobsLoop_timestampInv t lng pv cb now rest (i + 1) _ ⟨?_, h.2⟩
    intro x hx
    rcases mem_dictInsert hx with hxl | rfl
    · exact h.1 x hxl
    · refine ⟨rfl, ?_, fun _ => rfl⟩
      show ("queued" : String) ∉ terminalStatuses
      decide

/-- C4, amended: the invariant "`completed_at` is set iff the status is
terminal, and a queued job has no `started_at`" holds in the initial state and
is preserved by `add_download`, by `update_episode_progress`, and by
`_update_download_status` for every status value the code passes to it; but
`cancel_download` on a running job only preserves the weaker invariant — it
leaves a job with the terminal status `"cancelled"` and unset `completed_at`
in the live table until the worker retires it. -/
theorem C4_timestamp_invariant (st : ManagerState) (h : TimestampInv st) :
    TimestampInv initialManager ∧
    (∀ (t lng pv : String) (te : Nat) (cb : Option Nat) (now : Nat)
        (urls : List String),
      TimestampInv (add_download st t urls lng pv te cb now).1) ∧
    (∀ (qid : Nat) (p : ℚ) (desc : Option String),
      TimestampInv (update_episode_progress st qid p desc).1) ∧
    (∀ (qid : Nat) (s : String) (ce : Option Nat) (cur em : Option String)
        (te : Option Nat) (cep : Option ℚ) (now : Nat),
      s ∈ ["downloading", "completed", "failed", "cancelled"] →
      TimestampInv (update_download_status st qid s ce cur em te cep now).1) ∧
    (∀ qid : Nat, WeakTimestampInv (cancel_download st qid).1 ∧
      ∀ j ∈ (cancel_download st qid).1.active_downloads,
        j.status ∉ terminalStatuses ∨ j.status = "cancelled") := by
  refine ⟨?_, ?_, ?_, ?_, ?_⟩
  · exact ⟨fun j hj => absurd hj (List.not_mem_nil j),
      fun j hj => absurd hj (List.not_mem_nil j)⟩
  · intro t lng pv te cb now urls
    exact addJobsLoop_timestampInv t lng pv cb now urls 1 st h
  · intro qid p desc
    rw [update_episode_progress]
    cases hf : findJob st.active_downloads qid with
    | none => exact h
    | some j =>
      dsimp only
      refine ⟨?_, h.2⟩
      intro x hx
      rcases mem_mapJob hx with ⟨y, hy, hcase⟩
      rcases hcase with rfl | rfl
      · exact h.1 _ hy
      · obtain ⟨hst, _, hsa, hca, _, _, _⟩ := episodeProgressJob_fields p desc j
        have hjInv := h.1 j (mem_of_findJob hf)
        refine ⟨hca.trans hjInv.1, ?_, ?_⟩
        · rw [hst]
          exact hjInv.2.1
        · intro hq
          rw [hst] at hq
          rw [hsa]
          exact hjInv.2.2 hq
  · intro qid s ce cur em te cep now hs
    rw [update_download_status]
    cases hf : findJob st.active_downloads qid with
    | none => exact h
    | some d0 =>
      dsimp only
      have hd0 := h.1 d0 (mem_of_findJob hf)
      obtain ⟨h6s, h6i, h6a, h6c⟩ := statusUpdatedJob_fields s ce cur em te cep d0
      rw [finalizeStatusUpdate]
      split_ifs with h1 h2 h3
      · refine ⟨?_, h.2⟩
        intro x hx
        rcases mem_mapJob hx with ⟨y, hy, hcase⟩
        rcases hcase with rfl | rfl
        · exact h.1 _ hy
        · refine ⟨h6c.trans hd0.1, ?_, ?_⟩
          · show (statusUpdatedJob s ce cur em te cep d0).status ∉ terminalStatuses
            rw [h6s, h1.1]
            decide
          · intro hq
            have hq' : s = "queued" := by
              rw [← h6s]
              exact hq
            rw [h1.1] at hq'
            simp at hq'
      · refine ⟨fun x hx => h.1 x (mem_removeJob hx), ?_⟩
        intro x hx
        have hx' := mem_trimHistory hx
        rcases List.mem_append.mp hx' with hxo | hxn
        · exact h.2 x hxo
        · have hxe := List.mem_singleton.mp hxn
          subst hxe
          refine ⟨by simp, ?_⟩
          show (statusUpdatedJob s ce cur em te cep d0).status ∈ terminalStatuses
          rw [h6s]
          exact h2
      · refine ⟨fun x hx => h.1 x (mem_removeJob hx), ?_⟩
        intro x hx
        have hx' := mem_trimHistory hx
        rcases List.mem_append.mp hx' with hxo | hxn
        · exact h.2 x hxo
        · have hxe := List.mem_singleton.mp hxn
          subst hxe
          refine ⟨by simp, ?_⟩
          show (statusUpdatedJob s ce cur em te cep d0).status ∈ terminalStatuses
          rw [h6s]
          exact h2
      · have hs' : s = "downloading" := by
          simp only [List.mem_cons, List.not_mem_nil, or_false] at hs
          rcases hs with rfl | rfl | rfl | rfl
          · rfl
          · exact absurd (by decide) h2
          · exact absurd (by decide) h2
          · exact absurd (by decide) h2
        subst hs'
        refine ⟨?_, h.2⟩
        intro x hx
        rcases mem_mapJob hx with ⟨y, hy, hcase⟩
        rcases hcase with rfl | rfl
        · exact h.1 _ hy
        · refine ⟨h6c.trans hd0.1, ?_, ?_⟩
          · rw [h6s]
            decide
          · intro hq
            rw [h6s] at hq
            simp at hq
  · intro qid
    rw [cancel_download]
    cases hf : findJob st.active_downloads qid with
    | none =>
      exact ⟨⟨fun x hx => ⟨(h.1 x hx).1, (h.1 x hx).2.2⟩, h.2⟩,
        fun x hx => Or.inl (h.1 x hx).2.1⟩
    | some j =>
      dsimp only
      split_ifs with hq hd
      · exact ⟨⟨fun x hx => ⟨(h.1 x (mem_removeJob hx)).1,
          (h.1 x (mem_removeJob hx)).2.2⟩, h.2⟩,
          fun x hx => Or.inl (h.1 x (mem_removeJob hx)).2.1⟩
      · constructor
        · refine ⟨?_, h.2⟩
          intro x hx
          rcases mem_mapJob hx with ⟨y, hy, hcase⟩
          rcases hcase with rfl | rfl
          · exact ⟨(h.1 _ hy).1, (h.1 _ hy).2.2⟩
          · exact ⟨(h.1 y hy).1, fun hq2 => by simp at hq2⟩
        · intro x hx
          rcases mem_mapJob hx with ⟨y, hy, hcase⟩
          rcases hcase with rfl | rfl
          · exact Or.inl (h.1 _ hy).2.1
          · exact Or.inr rfl
      · exact ⟨⟨fun x hx => ⟨(h.1 x hx).1, (h.1 x hx).2.2⟩, h.2⟩,
          fun x hx => Or.inl (h.1 x hx).2.1⟩

/-- C4, witness for the amended theorem at a concrete downloading job:
retiring it as completed restores the invariant, and cancelling it preserves
the weak invariant. -/
theorem C4_timestamp_invariant_witness :
    TimestampInv (update_download_status c4_st2 1 "completed" (some 1) none
      none none none 5).1 ∧
    WeakTimestampInv (cancel_download c4_st2 1).1 := by
  have h := C4_timestamp_invariant c4_st2 (by unfold TimestampInv; decide)
  exact ⟨h.2.2.2.1 1 "completed" (some 1) none none none none 5 (by decide),
    (h.2.2.2.2 1).1⟩

/-! ## Claim C1: batch submission -/

/-- C1: for a non-empty batch, `add_download` creates one queued job per URL
(the k-th job carries the k-th URL and batch position `k + 1`), returns the
ids in input order as the consecutive range starting at the current
`_next_id`, so they are unique and strictly increasing, and bumps `_next_id`
by the batch size while no other operation ever changes `_next_id` — hence
ids are unique and strictly increasing over the manager lifetime. -/
theorem C1_submit_batch (st : ManagerState) (t lng pv : String) (te : Nat)
    (cb : Option Nat) (now : Nat) (urls : List String) (hne : urls ≠ [])
    (hwf : ∀ j ∈ st.active_downloads, j.id < st.next_id) :
    (add_download st t urls lng pv te cb now).2.length = urls.length ∧
    (add_download st t urls lng pv te cb now).2
      = List.range' st.next_id urls.length 1 ∧
    List.Pairwise (fun a b => a < b) (add_download st t urls lng pv te cb now).2 ∧
    (add_download st t urls lng pv te cb now).1.next_id
      = st.next_id + urls.length ∧
    (∀ k, (hk : k < urls.length) →
      ∃ j, j ∈ (add_download st t urls lng pv te cb now).1.active_downloads ∧
        j.id = st.next_id + k ∧ j.status = "queued" ∧
        j.episode_urls = [urls.get ⟨k, hk⟩] ∧ j.episode_number = 1 + k) ∧
    (∀ qid, (cancel_download st qid).1.next_id = st.next_id) ∧
    (∀ qid p desc, (update_episode_progress st qid p desc).1.next_id
      = st.next_id) ∧
    (∀ qid s ce cur em te2 cep now2,
      (update_download_status st qid s ce cur em te2 cep now2).1.next_id
        = st.next_id) := by
  have hids : (add_download st t urls lng pv te cb now).2
      = List.range' st.next_id urls.length 1 :=
    addJobsLoop_snd t lng pv cb now urls 1 st
  have hact : (add_download st t urls lng pv te cb now).1.active_downloads
      = st.active_downloads ++ batchJobs t lng pv cb now urls 1 st.next_id :=
    addJobsLoop_active t lng pv cb now urls 1 st hwf
  refine ⟨?_, hids, ?_, addJobsLoop_next_id t lng pv cb now urls 1 st, ?_,
    fun qid => cancel_download_next_id st qid,
    fun qid p desc => update_episode_progress_next_id st qid p desc,
    fun qid s ce cur em te2 cep now2 =>
      update_download_status_next_id st qid s ce cur em te2 cep now2⟩
  · rw [hids]
    exact List.length_range' _ _ _
  · rw [hids]
    exact List.pairwise_lt_range' _ _ 1 (by omega)
  · intro k hk
    refine ⟨mkJob (st.next_id + k) t (urls.get ⟨k, hk⟩) (1 + k) lng pv cb now,
      ?_, rfl, rfl, rfl, rfl⟩
    rw [hact]
    exact List.mem_append_right _ (batchJobs_mem t lng pv cb now urls 1
      st.next_id k hk)

/-- C1, witness: a three-item batch submitted to a fresh manager gets the ids
1, 2, 3 and the counter ends at 4. -/
theorem C1_submit_batch_witness :
    (add_download initialManager "Show" ["e1", "e2", "e3"] "German Dub" "VOE" 3
      none 0).2 = [1, 2, 3] ∧
    (add_download initialManager "Show" ["e1", "e2", "e3"] "German Dub" "VOE" 3
      none 0).1.next_id = 4 := by
  have h := C1_submit_batch initialManager "Show" "German Dub" "VOE" 3 none 0
    ["e1", "e2", "e3"] (by simp) (by intro j hj; simp [initialManager] at hj)
  constructor
  · rw [h.2.1]
    rfl
  · rw [h.2.2.2.1]
    rfl

/-! ## Claim C7: bounded completed history -/

/-- C7: no operation but a terminal `_update_download_status` touches the
history; a terminal update appends at most the one retired job and then trims
the buffer, so from a state within capacity the buffer stays within capacity,
the result is always a suffix of the old buffer plus the one new entry
(oldest entries are the ones evicted), and while strictly below capacity
nothing is evicted at all. -/
theorem C7_history_capacity (st : ManagerState)
    (hcap : 0 < st.max_completed_history)
    (hlen : st.completed_downloads.length ≤ st.max_completed_history) :
    (∀ (t lng pv : String) (te : Nat) (cb : Option Nat) (now : Nat)
        (urls : List String),
      (add_download st t urls lng pv te cb now).1.completed_downloads
        = st.completed_downloads) ∧
    (∀ qid, (cancel_download st qid).1.completed_downloads
      = st.completed_downloads) ∧
    (∀ qid p desc, (update_episode_progress st qid p desc).1.completed_downloads
      = st.completed_downloads) ∧
    (∀ qid s ce cur em te cep now,
      (update_download_status st qid s ce cur em te cep
          now).1.completed_downloads.length ≤ st.max_completed_history ∧
      (∃ tail : List Job, tail.length ≤ 1 ∧
        (update_download_status st qid s ce cur em te cep
            now).1.completed_downloads <:+ st.completed_downloads ++ tail) ∧
      (st.completed_downloads.length < st.max_completed_history →
        (update_download_status st qid s ce cur em te cep
            now).1.completed_downloads = st.completed_downloads ∨
        ∃ j, (update_download_status st qid s ce cur em te cep
            now).1.completed_downloads = st.completed_downloads ++ [j])) := by
  refine ⟨fun t lng pv te cb now urls =>
      addJobsLoop_completed t lng pv cb now urls 1 st,
    fun qid => cancel_download_completed st qid,
    fun qid p desc => update_episode_progress_completed st qid p desc, ?_⟩
  intro qid s ce cur em te cep now
  rw [update_download_status]
  cases hf : findJob st.active_downloads qid with
  | none =>
    exact ⟨hlen, ⟨[], by simp, by simp⟩, fun _ => Or.inl rfl⟩
  | some d0 =>
    dsimp only
    rw [finalizeStatusUpdate]
    split_ifs with h1 h2 h3
    · exact ⟨hlen, ⟨[], by simp, by simp⟩, fun _ => Or.inl rfl⟩
    · refine ⟨trimHistory_length hcap (by simpa using hlen), ?_, ?_⟩
      · exact ⟨_, by simp, trimHistory_suffix _ _⟩
      · intro hlt
        exact Or.inr ⟨_, trimHistory_eq_of_le (by simp; omega)⟩
    · refine ⟨trimHistory_length hcap (by simpa using hlen), ?_, ?_⟩
      · exact ⟨_, by simp, trimHistory_suffix _ _⟩
      · intro hlt
        exact Or.inr ⟨_, trimHistory_eq_of_le (by simp; omega)⟩
    · exact ⟨hlen, ⟨[], by simp, by simp⟩, fun _ => Or.inl rfl⟩

/-- C7, witness: retiring the concrete downloading job as failed keeps the
history within the default capacity of 10. -/
theorem C7_history_capacity_witness :
    (update_download_status c7_st 1 "failed" none none (some "boom") none none
      3).1.completed_downloads.length ≤ 10 := by
  have h := (C7_history_capacity c7_st (by decide) (by decide)).2.2.2
    1 "failed" none none (some "boom") none none 3
  exact h.1

/-! ## Claim C10: the status snapshot partition -/

theorem of_mem_activeViewsLoop {l : List Job} {v : ActiveView}
    (h : v ∈ activeViewsLoop l) :
    ∃ j, j ∈ l ∧ (j.status = "queued" ∨ j.status = "downloading")
      ∧ v = activeView j := by
  induction l with
  | nil => simp [activeViewsLoop] at h
  | cons x xs ih =>
    rw [activeViewsLoop] at h
    split_ifs at h with hx
    · rcases List.mem_cons.mp h with rfl | hrest
      · exact ⟨x, List.mem_cons_self x xs, hx, rfl⟩
      · obtain ⟨j, hj, hjs, rfl⟩ := ih hrest
        exact ⟨j, List.mem_cons_of_mem x hj, hjs, rfl⟩
    · obtain ⟨j, hj, hjs, rfl⟩ := ih h
      exact ⟨j, List.mem_cons_of_mem x hj, hjs, rfl⟩

theorem activeViewsLoop_eq (l : List Job) :
    activeViewsLoop l
      = (l.filter (fun j => j.status == "queued" || j.status == "downloading")
        ).map activeView := by
  induction l with
  | nil => rfl
  | cons x xs ih =>
    rw [activeViewsLoop, List.filter_cons]
    by_cases hx : x.status = "queued" ∨ x.status = "downloading"
    · rw [if_pos hx, if_pos (by simpa using hx), List.map_cons, ih]
    · rw [if_neg hx, if_neg (by simpa using hx), ih]

theorem completedViewsLoop_eq (l : List Job) :
    completedViewsLoop l = l.map completedView := by
  induction l with
  | nil => rfl
  | cons x xs ih =>
    rw [completedViewsLoop, List.map_cons, ih]

theorem nodup_job_id_unique (l : List Job) (h : (l.map Job.id).Nodup) :
    ∀ a ∈ l, ∀ b ∈ l, a.id = b.id → a = b := by
  induction l with
  | nil => intro a ha; exact absurd ha (List.not_mem_nil a)
  | cons x xs ih =>
    rw [List.map_cons, List.nodup_cons] at h
    intro a ha b hb hab
    rcases List.mem_cons.mp ha with rfl | ha' <;>
      rcases List.mem_cons.mp hb with rfl | hb'
    · rfl
    · exact absurd (hab ▸ List.mem_map_of_mem Job.id hb') h.1
    · exact absurd (hab ▸ List.mem_map_of_mem Job.id ha') h.1
    · exact ih h.2 a ha' b hb' hab

/-- C10: the snapshot lists exactly the queued/downloading live jobs as
`active` and exactly the history buffer as `completed`; consequently a
cancelled job still sitting in the live table (unique ids assumed, as the
id counter guarantees) appears in neither list as long as the worker has not
retired a copy of it into the history. -/
theorem C10_snapshot_partition (st : ManagerState)
    (hnd : (st.active_downloads.map Job.id).Nodup) :
    (get_queue_status st).active
      = (st.active_downloads.filter
          (fun j => j.status == "queued" || j.status == "downloading")).map
            activeView ∧
    (get_queue_status st).completed
      = st.completed_downloads.map completedView ∧
    (∀ j ∈ st.active_downloads, j.status = "cancelled" →
      (∀ v ∈ (get_queue_status st).active, v.id ≠ j.id) ∧
      ((∀ c ∈ st.completed_downloads, c.id ≠ j.id) →
        ∀ v ∈ (get_queue_status st).completed, v.id ≠ j.id)) := by
  refine ⟨activeViewsLoop_eq st.active_downloads,
    completedViewsLoop_eq st.completed_downloads, ?_⟩
  intro j hj hcan
  constructor
  · intro v hv
    obtain ⟨j2, hj2, hstat, rfl⟩ := of_mem_activeViewsLoop hv
    intro heq
    have hj2j : j2 = j :=
      nodup_job_id_unique st.active_downloads hnd j2 hj2 j hj heq
    subst hj2j
    rcases hstat with hstat | hstat <;> rw [hcan] at hstat <;> simp at hstat
  · intro hcomp v hv
    have hv' : v ∈ completedViewsLoop st.completed_downloads := hv
    rw [completedViewsLoop_eq] at hv'
    obtain ⟨c, hc, rfl⟩ := List.mem_map.mp hv'
    exact hcomp c hc

/-- C10, witness: at the concrete state holding one cancelled-but-live job,
the snapshot shows that job in neither list. -/
theorem C10_snapshot_partition_witness :
    (get_queue_status c10_st).active = [] ∧
    (get_queue_status c10_st).completed = [] ∧
    (findJob c10_st.active_downloads 1).map Job.status = some "cancelled" := by
  have h := C10_snapshot_partition c10_st (by decide)
  refine ⟨?_, ?_, rfl⟩
  · rw [h.1]
    rfl
  · rw [h.2.1]
    rfl

end Streamer
